import Mathlib

set_option maxRecDepth 10000
set_option maxHeartbeats 1000000

/-!
Shallow embedding of `src/src/elliptic/curves/secp256_k1.rs` (the secp256k1
scalar and point abstraction of the curv / cryptography-utils library),
together with models of its external collaborators (Integer Backend, Curve
Group Backend, Hash Primitive) taken from the specification where the
collaborator code is not part of the repository source under review.
-/

/- ### Integer Backend: byte-vector and hexadecimal conversions -/

/- ### Definitions: shallow embedding of the source and its collaborators -/

/-- Modelled from the spec: Integer Backend big-endian byte-vector to integer
conversion, i.e. the Rust `BigInt::from(&[u8])`. -/
def bytesToNat (l : List Nat) : Nat := l.foldl (fun acc b => 256 * acc + b) 0

/-- Fuel-driven worker for `natToBytes`; the fuel only serves structural
termination and is always at least the converted number. -/
def natToBytesF : Nat → Nat → List Nat
  | 0, _ => []
  | f + 1, n => if n = 0 then [] else natToBytesF f (n / 256) ++ [n % 256]

/-- Modelled from the spec: Integer Backend integer to big-endian byte-vector
conversion (minimal encoding, no leading zero bytes), i.e. `BigInt::to_vec`. -/
def natToBytes (n : Nat) : List Nat := natToBytesF n n

/-- Modelled from the spec: Integer Backend modular addition `BigInt::mod_add`. -/
def mod_add (a b m : Nat) : Nat := (a % m + b % m) % m

/-- Modelled from the spec: Integer Backend modular multiplication `BigInt::mod_mul`. -/
def mod_mul (a b m : Nat) : Nat := (a % m * (b % m)) % m

/-- Modelled from the spec: Integer Backend modular subtraction `BigInt::mod_sub`,
returning a representative in `[0, m)`. -/
def mod_sub (a b m : Nat) : Nat := (a % m + m - b % m) % m

/-- Value of one hexadecimal digit character, accepting both cases. -/
def hexDigitVal (c : Char) : Option Nat :=
  let n := c.toNat
  if 48 ≤ n ∧ n ≤ 57 then some (n - 48)
  else if 97 ≤ n ∧ n ≤ 102 then some (n - 87)
  else if 65 ≤ n ∧ n ≤ 70 then some (n - 55)
  else none

/-- Modelled from the spec: Integer Backend hexadecimal string to integer
conversion (`BigInt::from_str_radix(s, 16)` / `BigInt::from_hex`); fails on a
string that is not a hexadecimal numeral, in particular on the empty string. -/
def from_hex (s : String) : Option Nat :=
  if s.isEmpty then none
  else s.data.foldl (fun acc c => acc.bind fun a => (hexDigitVal c).map fun d => 16 * a + d)
    (some 0)

/-- Hexadecimal digit character for a value below 16: lowercase, as produced by
the Integer Backend `to_hex`. -/
def hexChar (n : Nat) : Char := if n < 10 then Char.ofNat (48 + n) else Char.ofNat (87 + n)

/-- Fuel-driven worker for `toHex`. -/
def toHexF : Nat → Nat → List Char
  | 0, _ => []
  | f + 1, n => if n = 0 then [] else toHexF f (n / 16) ++ [hexChar (n % 16)]

/-- Modelled from the spec: Integer Backend integer to hexadecimal string
conversion (`BigInt::to_hex`): lowercase, minimal width, no radix marker. -/
def toHex (n : Nat) : String := if n = 0 then "0" else String.mk (toHexF n n)

/-- Left zero padding of a byte vector to width `k`, the common padding step of
`Secp256k1Scalar::from` and `Secp256k1Point::from_coor`. -/
def padTo (k : Nat) (v : List Nat) : List Nat :=
  if v.length < k then List.replicate (k - v.length) 0 ++ v else v

/-- Byte length of a raw scalar (`constants::SECRET_KEY_SIZE`). -/
def SECRET_KEY_SIZE : Nat := 32

/-- Byte length of an uncompressed point encoding
(`constants::UNCOMPRESSED_PUBLIC_KEY_SIZE`). -/
def UNCOMPRESSED_PUBLIC_KEY_SIZE : Nat := 65

/-- Modelled from the spec: the secp256k1 curve order (`constants::CURVE_ORDER`,
a 32-byte big-endian constant of the Curve Group Backend). -/
def CURVE_ORDER : Nat :=
  0xfffffffffffffffffffffffffffffffebaaedce6af48a03bbfd25e8cd0364141

/-- Modelled from the spec: the secp256k1 base field prime, a parameter of the
Curve Group Backend used by its on-curve validation. -/
def FIELD_PRIME : Nat :=
  0xfffffffffffffffffffffffffffffffffffffffffffffffffffffffefffffc2f

/-- Modelled from the spec: x coordinate of the curve generator
(`constants::GENERATOR_X`, a 32-byte big-endian constant). -/
def GENERATOR_X : Nat :=
  0x79be667ef9dcbbac55a06295ce870b07029bfcdb2dce28d959f2815b16f81798

/-- Modelled from the spec: y coordinate of the curve generator
(`constants::GENERATOR_Y`, a 32-byte big-endian constant). -/
def GENERATOR_Y : Nat :=
  0x483ada7726a3c4655da4fbfc0e1108a8fd17b448a68554199c47d08ffb10d4b8

/-- Modelled from the spec: the raw scalar type of the Curve Group Backend
(`SecretKey`, alias `SK`): a vector of big-endian bytes. -/
structure SK where
  bytes : List Nat
deriving DecidableEq

/-- Modelled from the spec: `SecretKey::from_slice` of the Curve Group Backend.
Accepts exactly `SECRET_KEY_SIZE` bytes encoding a value in `[1, order - 1]`;
per the spec the backend rejects all-zero or out-of-range raw bytes. -/
def SK.from_slice (data : List Nat) : Option SK :=
  if data.length = SECRET_KEY_SIZE ∧ 0 < bytesToNat data ∧ bytesToNat data < CURVE_ORDER
  then some ⟨data⟩ else none

/-- A raw scalar as the backend would produce it: canonical length and value
in range. -/
def SK.valid (sk : SK) : Prop :=
  sk.bytes.length = SECRET_KEY_SIZE ∧ 0 < bytesToNat sk.bytes ∧
    bytesToNat sk.bytes < CURVE_ORDER

instance (sk : SK) : Decidable sk.valid := by
  unfold SK.valid
  infer_instance

/-- The scalar wrapper of the source: a provenance string and a raw scalar.
The derived Rust `PartialEq` compares both fields, which `DecidableEq`
mirrors. -/
structure Secp256k1Scalar where
  purpose : String
  fe : SK
deriving DecidableEq

/-- Source `Secp256k1Scalar::q`: the curve order as an integer, read from the backend
constant bytes. -/
def Secp256k1Scalar.q : Nat := CURVE_ORDER

/-- Source `Secp256k1Scalar::to_big_int`: interpret the raw scalar bytes as a
big-endian integer. -/
def Secp256k1Scalar.to_big_int (s : Secp256k1Scalar) : Nat := bytesToNat s.fe.bytes

/-- Source `ECScalar::from` for `Secp256k1Scalar` (named `fromBigInt` because `from` is
a Lean keyword): reduce modulo the order via `mod_add` with zero, convert to
bytes, left-pad to `SECRET_KEY_SIZE`, and build the raw scalar. The Rust
`unwrap` of the backend result is modelled by `Option`. -/
def Secp256k1Scalar.fromBigInt (n : Nat) : Option Secp256k1Scalar :=
  let n_reduced := mod_add n 0 Secp256k1Scalar.q
  let v := natToBytes n_reduced
  let v := if v.length < SECRET_KEY_SIZE
    then List.replicate (SECRET_KEY_SIZE - v.length) 0 ++ v else v
  (SK.from_slice v).map fun sk => { purpose := "from_big_int", fe := sk }

/-- Source `Secp256k1Scalar::add`: convert both operands to integers, `mod_add` them
against the order, and rebuild through `ECScalar::from`; the result keeps the
raw scalar and gets purpose `"add"`. The temporary `other_scalar` built from
`new_random` plus `set_element` has its `fe` overwritten with `other`, so only
`other` matters. -/
def Secp256k1Scalar.add (self : Secp256k1Scalar) (other : SK) : Option Secp256k1Scalar :=
  let other_scalar : Secp256k1Scalar := { purpose := "random", fe := other }
  (Secp256k1Scalar.fromBigInt
      (mod_add self.to_big_int other_scalar.to_big_int Secp256k1Scalar.q)).map
    fun res => { purpose := "add", fe := res.fe }

/-- Source `Secp256k1Scalar::mul`, same shape as `add` with `mod_mul`. -/
def Secp256k1Scalar.mul (self : Secp256k1Scalar) (other : SK) : Option Secp256k1Scalar :=
  let other_scalar : Secp256k1Scalar := { purpose := "random", fe := other }
  (Secp256k1Scalar.fromBigInt
      (mod_mul self.to_big_int other_scalar.to_big_int Secp256k1Scalar.q)).map
    fun res => { purpose := "mul", fe := res.fe }

/-- Source `Secp256k1Scalar::sub`, same shape as `add` with `mod_sub`; note the source
labels the result with purpose `"mul"`. -/
def Secp256k1Scalar.sub (self : Secp256k1Scalar) (other : SK) : Option Secp256k1Scalar :=
  let other_scalar : Secp256k1Scalar := { purpose := "random", fe := other }
  (Secp256k1Scalar.fromBigInt
      (mod_sub self.to_big_int other_scalar.to_big_int Secp256k1Scalar.q)).map
    fun res => { purpose := "mul", fe := res.fe }

/-- Source `Secp256k1ScalarVisitor::visit_str`: parse the string as a base-16 integer
(panicking on failure, modelled as `none`) and rebuild via `ECScalar::from`. -/
def scalar_visit_str (s : String) : Option Secp256k1Scalar :=
  match from_hex s with
  | none => none
  | some v => Secp256k1Scalar.fromBigInt v

/-- Serialize impl for `Secp256k1Scalar`: the hexadecimal string of its integer
value. -/
def scalar_serialize (s : Secp256k1Scalar) : String := toHex s.to_big_int

/-- Modulo exponentiation worker with explicit fuel (the exponent bounds the
number of halvings). -/
def powModF : Nat → Nat → Nat → Nat → Nat
  | 0, _, _, m => 1 % m
  | f + 1, b, e, m =>
    if e = 0 then 1 % m
    else
      let r := powModF f (b * b % m) (e / 2) m
      if e % 2 = 1 then b * r % m else r

/-- Modular exponentiation by squaring, used by the backend model to recover a
square root when decoding a compressed point. -/
def powMod (b e m : Nat) : Nat := powModF e b e m

/-- Modelled from the spec: the raw point type of the Curve Group Backend
(`PublicKey`, alias `PK`): a validated affine point given by its
coordinates. -/
structure PK where
  x : Nat
  y : Nat
deriving DecidableEq

/-- The secp256k1 curve equation together with coordinate range checks, as the
backend enforces at point construction. -/
abbrev onCurve (x y : Nat) : Prop :=
  x < FIELD_PRIME ∧ y < FIELD_PRIME ∧
    y * y % FIELD_PRIME = (x * x * x + 7) % FIELD_PRIME

/-- Modelled from the spec: `PublicKey::from_slice` of the Curve Group Backend.
Accepts the uncompressed layout `0x04 || X || Y` (65 bytes) or the compressed
layout `0x02/0x03 || X` (33 bytes, the byte selecting the parity of `y`), and
validates that the point lies on the curve. -/
def PK.from_slice (data : List Nat) : Option PK :=
  if data.length = UNCOMPRESSED_PUBLIC_KEY_SIZE ∧ data.head? = some 4 then
    let x := bytesToNat ((data.drop 1).take 32)
    let y := bytesToNat (data.drop 33)
    if onCurve x y then some ⟨x, y⟩ else none
  else if data.length = 33 ∧ (data.head? = some 2 ∨ data.head? = some 3) then
    let x := bytesToNat (data.drop 1)
    let rhs := (x * x * x + 7) % FIELD_PRIME
    let r := powMod rhs ((FIELD_PRIME + 1) / 4) FIELD_PRIME
    let y := if decide (r % 2 = 0) = decide (data.head? = some 2) then r
      else FIELD_PRIME - r
    if onCurve x y then some ⟨x, y⟩ else none
  else none

/-- Modelled from the spec: `PublicKey::serialize_uncompressed`:
`0x04 || X || Y` with both coordinates at canonical 32-byte width. -/
def PK.serialize_uncompressed (pk : PK) : List Nat :=
  4 :: (padTo 32 (natToBytes pk.x) ++ padTo 32 (natToBytes pk.y))

/-- Modelled from the spec: `PublicKey::serialize` (compressed form):
a parity byte `0x02`/`0x03` followed by the 32-byte x coordinate. -/
def PK.serialize (pk : PK) : List Nat :=
  (if pk.y % 2 = 0 then 2 else 3) :: padTo 32 (natToBytes pk.x)

/-- The point wrapper of the source: a provenance string and a raw point. The
derived Rust `PartialEq` compares both fields, which `DecidableEq` mirrors. -/
structure Secp256k1Point where
  purpose : String
  ge : PK
deriving DecidableEq

/-- Source `ECPoint::generator` for `Secp256k1Point`: build `0x04 || GX || GY` from
the backend generator constants and decode it; the Rust `unwrap` is modelled
by `Option`. -/
def Secp256k1Point.generator : Option Secp256k1Point :=
  let v := 4 :: (natToBytes GENERATOR_X ++ natToBytes GENERATOR_Y)
  (PK.from_slice v).map fun pk => { purpose := "base_fe", ge := pk }

/-- Source `Secp256k1Point::x_coor`: serialize uncompressed and read the first half of
the payload (bytes `[1, len/2 + 1)`) as a big-endian integer. -/
def Secp256k1Point.x_coor (p : Secp256k1Point) : Nat :=
  let serialized_pk := PK.serialize_uncompressed p.ge
  bytesToNat ((serialized_pk.drop 1).take (serialized_pk.length / 2))

/-- Source `Secp256k1Point::y_coor`: serialize uncompressed and read the second half
of the payload (bytes `[(len - 1)/2 + 1, len)`) as a big-endian integer. -/
def Secp256k1Point.y_coor (p : Secp256k1Point) : Nat :=
  let serialized_pk := PK.serialize_uncompressed p.ge
  bytesToNat (serialized_pk.drop ((serialized_pk.length - 1) / 2 + 1))

/-- Source `Secp256k1Point::bytes_compressed_to_big_int`: the 33-byte compressed
serialization read as a big-endian integer. -/
def Secp256k1Point.bytes_compressed_to_big_int (p : Secp256k1Point) : Nat :=
  bytesToNat ((PK.serialize p.ge).take 33)

/-- Source `Secp256k1Point::pk_to_key_slice`: a `0x04` byte followed by the byte
vector of `x_coor` twice (the source extends with `x_coor` in both halves). -/
def Secp256k1Point.pk_to_key_slice (p : Secp256k1Point) : List Nat :=
  4 :: (natToBytes p.x_coor ++ natToBytes p.x_coor)

/-- Source `Secp256k1Point::base_point2`, parameterized by the Hash Primitive
(modelled from the spec as an abstract function on integers, standing for
`HSha256::create_hash` of a one-element list): hash the integer reading of the
compressed generator three times, prepend the compressed parity byte `0x02`,
and decode through the backend. -/
def Secp256k1Point.base_point2 (H : Nat → Nat) : Option Secp256k1Point :=
  Secp256k1Point.generator.bind fun g =>
    let hash := H g.bytes_compressed_to_big_int
    let hash := H hash
    let hash := H hash
    let hash_vec := natToBytes hash
    let template := 2 :: hash_vec
    (PK.from_slice template).map fun pk => { purpose := "blind_point", ge := pk }

/-- The spec-side description of the second generator, written from the words
of the specification: compress the primary generator to an integer, apply the
Hash Primitive three times in sequence, interpret the final output as an
x coordinate under the compressed-point parity byte `0x02`, and decode via the
backend. -/
def second_generator_spec (H : Nat → Nat) : Option Secp256k1Point :=
  Secp256k1Point.generator.bind fun g =>
    (PK.from_slice (2 :: natToBytes (H (H (H g.bytes_compressed_to_big_int))))).map
      fun pk => { purpose := "blind_point", ge := pk }

/-- Source `Secp256k1Point::from_coor`: left-pad both coordinate encodings to the
canonical width `(UNCOMPRESSED_PUBLIC_KEY_SIZE - 1) / 2`, assert that the
padded bytes still read back as the original integers, prepend `0x04` and
decode through the backend. Assertion failures and the backend `unwrap` are
modelled by `Option`. -/
def Secp256k1Point.from_coor (x y : Nat) : Option Secp256k1Point :=
  let vec_x := natToBytes x
  let vec_y := natToBytes y
  let coor_size := (UNCOMPRESSED_PUBLIC_KEY_SIZE - 1) / 2
  let vec_x := if vec_x.length < coor_size
    then List.replicate (coor_size - vec_x.length) 0 ++ vec_x else vec_x
  let vec_y := if vec_y.length < coor_size
    then List.replicate (coor_size - vec_y.length) 0 ++ vec_y else vec_y
  if bytesToNat vec_x = x ∧ bytesToNat vec_y = y then
    (PK.from_slice (4 :: (vec_x ++ vec_y))).map fun pk => { purpose := "base_fe", ge := pk }
  else none

/-- Serialize impl for `Secp256k1Point`: a record with exactly the fields `x`
and `y`, holding the hexadecimal strings of the two coordinates. -/
def pointSerialize (p : Secp256k1Point) : String × String :=
  (toHex p.x_coor, toHex p.y_coor)

/-- The distinguishable fatal outcomes of point deserialization. The source
can fail by panicking on an unrecognized field, panicking inside the hex
parse, or panicking inside `from_coor`; `missingField` is never produced and
exists to state that no missing-field fault is reported. -/
inductive DeserError where
  | unknownField (name : String)
  | hexParse
  | pointConstruction
  | missingField (name : String)
deriving DecidableEq

/-- The field-reading loop of `visit_map`: fold over the key/value entries,
remembering the last `"x"` and `"y"` values (both start as the empty string)
and failing fatally on any other key. -/
def readFields : List (String × String) → String → String → Except DeserError (String × String)
  | [], x, y => .ok (x, y)
  | (k, v) :: rest, x, y =>
    if k = "x" then readFields rest v y
    else if k = "y" then readFields rest x v
    else .error (.unknownField k)

/-- Source `Secp256k1PointVisitor::visit_map`: read all fields, parse both collected
strings as base-16 integers, and rebuild through `from_coor`. -/
def visit_map (entries : List (String × String)) : Except DeserError Secp256k1Point :=
  match readFields entries "" "" with
  | .error e => .error e
  | .ok (x, y) =>
    match from_hex x with
    | none => .error DeserError.hexParse
    | some xv =>
      match from_hex y with
      | none => .error DeserError.hexParse
      | some yv =>
        match Secp256k1Point.from_coor xv yv with
        | none => .error DeserError.pointConstruction
        | some p => .ok p

/-- The generator as a concrete point value. -/
def genPoint : Secp256k1Point := ⟨"base_fe", ⟨GENERATOR_X, GENERATOR_Y⟩⟩

/-- A constant stand-in for the Hash Primitive, used to instantiate the
hash-parameterized statements at a concrete input. -/
def hashConst : Nat → Nat := fun _ => GENERATOR_X

/-- The scalar with value 2 as `ECScalar::from` produces it. -/
def sc2 : Secp256k1Scalar := ⟨"from_big_int", ⟨padTo SECRET_KEY_SIZE (natToBytes 2)⟩⟩

/-- The scalar with value 3 as `ECScalar::from` produces it. -/
def sc3 : Secp256k1Scalar := ⟨"from_big_int", ⟨padTo SECRET_KEY_SIZE (natToBytes 3)⟩⟩

/-- The raw scalar with value 5. -/
def sk5 : SK := ⟨padTo SECRET_KEY_SIZE (natToBytes 5)⟩

/-- The scalar with value 1 as `ECScalar::from` produces it. -/
def scOne : Secp256k1Scalar := ⟨"from_big_int", ⟨padTo SECRET_KEY_SIZE (natToBytes 1)⟩⟩

/-- The scalar with value `order - 1` as `ECScalar::from` produces it. -/
def scOM1 : Secp256k1Scalar :=
  ⟨"from_big_int", ⟨padTo SECRET_KEY_SIZE (natToBytes (CURVE_ORDER - 1))⟩⟩

/-- x coordinate of a curve point whose both coordinates encode in fewer than
32 bytes. -/
def shortX : Nat := 260

/-- y coordinate matching `shortX` on the curve, below `256 ^ 31`. -/
def shortY : Nat :=
  417975528703653920064182747716454485151159055547932629134679173498699223046

/- ### Theorems -/

theorem bytesToNat_nil : bytesToNat [] = 0 := rfl

theorem bytesToNat_foldl (l : List Nat) (a : Nat) :
    l.foldl (fun acc b => 256 * acc + b) a = a * 256 ^ l.length + bytesToNat l := by
  induction l generalizing a with
  | nil => simp [bytesToNat]
  | cons c t ih =>
    show t.foldl _ (256 * a + c) = _
    rw [ih (256 * a + c)]
    have hc : bytesToNat (c :: t) = (256 * 0 + c) * 256 ^ t.length + bytesToNat t := by
      show t.foldl _ (256 * 0 + c) = _
      rw [ih (256 * 0 + c)]
    rw [hc]
    ring_nf
    rw [List.length_cons]
    ring

theorem bytesToNat_append (l₁ l₂ : List Nat) :
    bytesToNat (l₁ ++ l₂) = bytesToNat l₁ * 256 ^ l₂.length + bytesToNat l₂ := by
  unfold bytesToNat
  rw [List.foldl_append]
  exact bytesToNat_foldl l₂ _

theorem bytesToNat_append_single (l : List Nat) (b : Nat) :
    bytesToNat (l ++ [b]) = 256 * bytesToNat l + b := by
  rw [bytesToNat_append]
  simp [bytesToNat]
  ring

theorem bytesToNat_replicate_zero (k : Nat) : bytesToNat (List.replicate k 0) = 0 := by
  induction k with
  | zero => rfl
  | succ k ih =>
    show bytesToNat (0 :: List.replicate k 0) = 0
    show (List.replicate k 0).foldl _ (256 * 0 + 0) = 0
    simpa [bytesToNat] using ih

theorem bytesToNat_replicate_zero_append (k : Nat) (l : List Nat) :
    bytesToNat (List.replicate k 0 ++ l) = bytesToNat l := by
  rw [bytesToNat_append, bytesToNat_replicate_zero]
  simp

theorem natToBytesF_spec (f : Nat) : ∀ n, n ≤ f → bytesToNat (natToBytesF f n) = n := by
  induction f with
  | zero =>
    intro n hn
    interval_cases n
    rfl
  | succ f ih =>
    intro n hn
    by_cases h0 : n = 0
    · simp [natToBytesF, h0, bytesToNat]
    · rw [natToBytesF, if_neg h0, bytesToNat_append_single]
      have hd : n / 256 ≤ f := by
        have : n / 256 < n := Nat.div_lt_self (Nat.pos_of_ne_zero h0) (by norm_num)
        omega
      rw [ih (n / 256) hd]
      exact Nat.div_add_mod n 256

theorem natToBytes_spec (n : Nat) : bytesToNat (natToBytes n) = n :=
  natToBytesF_spec n n (Nat.le_refl n)

theorem natToBytesF_len (f : Nat) :
    ∀ n k, n ≤ f → n < 256 ^ k → (natToBytesF f n).length ≤ k := by
  induction f with
  | zero =>
    intro n k _ _
    simp [natToBytesF]
  | succ f ih =>
    intro n k hn hk
    by_cases h0 : n = 0
    · simp [natToBytesF, h0]
    · rw [natToBytesF, if_neg h0]
      cases k with
      | zero =>
        exfalso
        have : n < 1 := by simpa using hk
        omega
      | succ k =>
        have hd : n / 256 ≤ f := by
          have : n / 256 < n := Nat.div_lt_self (Nat.pos_of_ne_zero h0) (by norm_num)
          omega
        have hdk : n / 256 < 256 ^ k := by
          rw [Nat.div_lt_iff_lt_mul (by norm_num : 0 < 256)]
          calc n < 256 ^ (k + 1) := hk
            _ = 256 ^ k * 256 := by ring
        have := ih (n / 256) k hd hdk
        simp only [List.length_append, List.length_cons, List.length_nil]
        omega

theorem natToBytes_len (n k : Nat) (h : n < 256 ^ k) : (natToBytes n).length ≤ k :=
  natToBytesF_len n n k (Nat.le_refl n) h

theorem padTo_len (k : Nat) (v : List Nat) (h : v.length ≤ k) : (padTo k v).length = k := by
  unfold padTo
  by_cases hlt : v.length < k
  · rw [if_pos hlt]
    simp
    omega
  · rw [if_neg hlt]
    omega

theorem padTo_val (k : Nat) (v : List Nat) : bytesToNat (padTo k v) = bytesToNat v := by
  unfold padTo
  by_cases hlt : v.length < k
  · rw [if_pos hlt, bytesToNat_replicate_zero_append]
  · rw [if_neg hlt]

theorem mod_add_eq (a b m : Nat) : mod_add a b m = (a + b) % m :=
  (Nat.add_mod a b m).symm

theorem mod_mul_eq (a b m : Nat) : mod_mul a b m = a * b % m :=
  (Nat.mul_mod a b m).symm

theorem mod_sub_add_cancel (a b m : Nat) (hm : 0 < m) :
    (mod_sub a b m + b) % m = a % m := by
  unfold mod_sub
  rw [Nat.mod_add_mod]
  have hy : b % m < m := Nat.mod_lt b hm
  have hdm : m * (b / m) + b % m = b := Nat.div_add_mod b m
  have harr : a % m + m - b % m + b = a % m + m + m * (b / m) := by omega
  rw [harr, Nat.add_mul_mod_self_left, Nat.add_mod_right, Nat.mod_mod_of_dvd a dvd_rfl]

theorem CURVE_ORDER_lt_pow : CURVE_ORDER < 256 ^ 32 := by decide

theorem fromBigInt_sound (n : Nat) (h : n % CURVE_ORDER ≠ 0) :
    Secp256k1Scalar.fromBigInt n =
      some ⟨"from_big_int", ⟨padTo SECRET_KEY_SIZE (natToBytes (n % CURVE_ORDER))⟩⟩ ∧
    bytesToNat (padTo SECRET_KEY_SIZE (natToBytes (n % CURVE_ORDER))) = n % CURVE_ORDER ∧
    (padTo SECRET_KEY_SIZE (natToBytes (n % CURVE_ORDER))).length = SECRET_KEY_SIZE := by
  have hred : mod_add n 0 Secp256k1Scalar.q = n % CURVE_ORDER := by
    rw [mod_add_eq]
    simp [Secp256k1Scalar.q]
  have hlt : n % CURVE_ORDER < CURVE_ORDER :=
    Nat.mod_lt n (by decide : 0 < CURVE_ORDER)
  have hlen : (natToBytes (n % CURVE_ORDER)).length ≤ SECRET_KEY_SIZE :=
    natToBytes_len _ 32 (lt_trans hlt CURVE_ORDER_lt_pow)
  have hval : bytesToNat (padTo SECRET_KEY_SIZE (natToBytes (n % CURVE_ORDER)))
      = n % CURVE_ORDER := by
    rw [padTo_val, natToBytes_spec]
  refine ⟨?_, hval, padTo_len _ _ hlen⟩
  simp only [Secp256k1Scalar.fromBigInt, hred]
  have hpad : (if (natToBytes (n % CURVE_ORDER)).length < SECRET_KEY_SIZE
      then List.replicate (SECRET_KEY_SIZE - (natToBytes (n % CURVE_ORDER)).length) 0
        ++ natToBytes (n % CURVE_ORDER)
      else natToBytes (n % CURVE_ORDER))
      = padTo SECRET_KEY_SIZE (natToBytes (n % CURVE_ORDER)) := by
    unfold padTo
    rfl
  rw [hpad, SK.from_slice, if_pos ⟨padTo_len _ _ hlen, by rw [hval]; exact Nat.pos_of_ne_zero h,
    by rw [hval]; exact hlt⟩]
  rfl

theorem bytesToNat_cons (c : Nat) (t : List Nat) :
    bytesToNat (c :: t) = c * 256 ^ t.length + bytesToNat t := by
  show t.foldl _ (256 * 0 + c) = _
  rw [bytesToNat_foldl]
  norm_num

theorem bytesToNat_lt (l : List Nat) (h : ∀ b ∈ l, b < 256) :
    bytesToNat l < 256 ^ l.length := by
  induction l with
  | nil => simp [bytesToNat]
  | cons c t ih =>
    rw [bytesToNat_cons]
    have hc : c < 256 := h c (List.mem_cons_self c t)
    have ht : bytesToNat t < 256 ^ t.length := ih fun b hb => h b (List.mem_cons_of_mem c hb)
    have : c * 256 ^ t.length + bytesToNat t < (c + 1) * 256 ^ t.length := by
      have := Nat.pos_pow_of_pos t.length (by norm_num : 0 < 256)
      nlinarith
    calc c * 256 ^ t.length + bytesToNat t < (c + 1) * 256 ^ t.length := this
      _ ≤ 256 * 256 ^ t.length := Nat.mul_le_mul_right _ hc
      _ = 256 ^ (c :: t).length := by rw [List.length_cons]; ring

theorem natToBytesF_bytes_lt (f : Nat) : ∀ n, ∀ b ∈ natToBytesF f n, b < 256 := by
  induction f with
  | zero =>
    intro n b hb
    simp [natToBytesF] at hb
  | succ f ih =>
    intro n b hb
    by_cases h0 : n = 0
    · simp [natToBytesF, h0] at hb
    · rw [natToBytesF, if_neg h0] at hb
      rcases List.mem_append.1 hb with h | h
      · exact ih _ b h
      · have : b = n % 256 := by simpa using h
        rw [this]
        exact Nat.mod_lt n (by norm_num)

theorem natToBytes_value_lt (n : Nat) : n < 256 ^ (natToBytes n).length := by
  conv_lhs => rw [← natToBytes_spec n]
  exact bytesToNat_lt _ (natToBytesF_bytes_lt n n)

theorem FIELD_PRIME_lt_pow : FIELD_PRIME < 256 ^ 32 := by decide

theorem take32_of_append (X Y : List Nat) (hX : X.length = 32) : (X ++ Y).take 32 = X := by
  rw [← hX]
  exact List.take_left X Y

theorem drop32_of_append (X Y : List Nat) (hX : X.length = 32) : (X ++ Y).drop 32 = Y := by
  rw [← hX]
  exact List.drop_left X Y

/-- The two coordinate readers undo the uncompressed serialization whenever the
coordinates fit in the canonical 32-byte width. -/
theorem coor_spec (p : Secp256k1Point) (hx : p.ge.x < 256 ^ 32) (hy : p.ge.y < 256 ^ 32) :
    p.x_coor = p.ge.x ∧ p.y_coor = p.ge.y := by
  have hX : (padTo 32 (natToBytes p.ge.x)).length = 32 :=
    padTo_len _ _ (natToBytes_len _ _ hx)
  have hY : (padTo 32 (natToBytes p.ge.y)).length = 32 :=
    padTo_len _ _ (natToBytes_len _ _ hy)
  have hslen : (PK.serialize_uncompressed p.ge).length = 65 := by
    show (4 :: (padTo 32 (natToBytes p.ge.x) ++ padTo 32 (natToBytes p.ge.y))).length = 65
    rw [List.length_cons, List.length_append, hX, hY]
  constructor
  · show bytesToNat (((PK.serialize_uncompressed p.ge).drop 1).take
        ((PK.serialize_uncompressed p.ge).length / 2)) = p.ge.x
    rw [hslen]
    show bytesToNat (((4 :: (padTo 32 (natToBytes p.ge.x) ++ padTo 32 (natToBytes p.ge.y))).drop 1).take
        (65 / 2)) = p.ge.x
    rw [List.drop_succ_cons, List.drop_zero]
    show bytesToNat ((padTo 32 (natToBytes p.ge.x) ++ padTo 32 (natToBytes p.ge.y)).take 32) = p.ge.x
    rw [take32_of_append _ _ hX, padTo_val, natToBytes_spec]
  · show bytesToNat ((PK.serialize_uncompressed p.ge).drop
        (((PK.serialize_uncompressed p.ge).length - 1) / 2 + 1)) = p.ge.y
    rw [hslen]
    show bytesToNat ((4 :: (padTo 32 (natToBytes p.ge.x) ++ padTo 32 (natToBytes p.ge.y))).drop 33)
        = p.ge.y
    rw [List.drop_succ_cons]
    show bytesToNat ((padTo 32 (natToBytes p.ge.x) ++ padTo 32 (natToBytes p.ge.y)).drop 32) = p.ge.y
    rw [drop32_of_append _ _ hX, padTo_val, natToBytes_spec]

/-- Decoding the uncompressed layout built from padded coordinates of an
on-curve point succeeds and returns exactly those coordinates. -/
theorem PK_from_slice_uncompressed (x y : Nat) (hx : x < 256 ^ 32) (hy : y < 256 ^ 32)
    (hc : onCurve x y) :
    PK.from_slice (4 :: (padTo 32 (natToBytes x) ++ padTo 32 (natToBytes y)))
      = some ⟨x, y⟩ := by
  have hX : (padTo 32 (natToBytes x)).length = 32 := padTo_len _ _ (natToBytes_len _ _ hx)
  have hY : (padTo 32 (natToBytes y)).length = 32 := padTo_len _ _ (natToBytes_len _ _ hy)
  have hlen : (4 :: (padTo 32 (natToBytes x) ++ padTo 32 (natToBytes y))).length
      = UNCOMPRESSED_PUBLIC_KEY_SIZE := by
    rw [List.length_cons, List.length_append, hX, hY]
    rfl
  unfold PK.from_slice
  rw [if_pos ⟨hlen, rfl⟩]
  have hxread : bytesToNat (((4 :: (padTo 32 (natToBytes x) ++ padTo 32 (natToBytes y))).drop 1).take 32)
      = x := by
    rw [List.drop_succ_cons, List.drop_zero, take32_of_append _ _ hX, padTo_val, natToBytes_spec]
  have hyread : bytesToNat ((4 :: (padTo 32 (natToBytes x) ++ padTo 32 (natToBytes y))).drop 33)
      = y := by
    rw [List.drop_succ_cons, drop32_of_append _ _ hX, padTo_val, natToBytes_spec]
  simp only [hxread, hyread]
  rw [if_pos hc]

/-- Lemma: `from_coor` succeeds on in-range on-curve coordinates, and returns the
point itself with purpose `"base_fe"`. -/
theorem from_coor_spec (x y : Nat) (hx : x < 256 ^ 32) (hy : y < 256 ^ 32)
    (hc : onCurve x y) :
    Secp256k1Point.from_coor x y = some ⟨"base_fe", ⟨x, y⟩⟩ := by
  have hxv : bytesToNat (padTo 32 (natToBytes x)) = x := by rw [padTo_val, natToBytes_spec]
  have hyv : bytesToNat (padTo 32 (natToBytes y)) = y := by rw [padTo_val, natToBytes_spec]
  show (if bytesToNat (padTo 32 (natToBytes x)) = x ∧ bytesToNat (padTo 32 (natToBytes y)) = y then
      (PK.from_slice (4 :: (padTo 32 (natToBytes x) ++ padTo 32 (natToBytes y)))).map
        (fun pk => ({ purpose := "base_fe", ge := pk } : Secp256k1Point)) else none)
      = some (⟨"base_fe", ⟨x, y⟩⟩ : Secp256k1Point)
  rw [if_pos ⟨hxv, hyv⟩, PK_from_slice_uncompressed x y hx hy hc]
  rfl

theorem generator_eq : Secp256k1Point.generator = some genPoint := by decide

theorem fromBigInt_map_purpose (n : Nat) (pur : String) (h : n % CURVE_ORDER ≠ 0) :
    ∃ sk : SK, (Secp256k1Scalar.fromBigInt n).map (fun res => Secp256k1Scalar.mk pur res.fe)
      = some ⟨pur, sk⟩ ∧ bytesToNat sk.bytes = n % CURVE_ORDER := by
  obtain ⟨h1, h2, _⟩ := fromBigInt_sound n h
  rw [h1]
  exact ⟨_, rfl, h2⟩

/-- Claim C1 counterexample: at input 0 (more generally, any multiple of the
order) the construction does not produce a Scalar at all; the backend rejects
the all-zero raw bytes and `from_integer` panics, so the stated round-trip
fails at n = 0. -/
theorem fromBigInt_zero_counterexample : Secp256k1Scalar.fromBigInt 0 = none := by decide

/-- Claim C1 (amended): for every nonnegative integer whose residue modulo the
curve order is nonzero, `from_integer` succeeds, the raw bytes are the
big-endian encoding of the residue left-zero-padded to 32 bytes, and
`to_integer` reads back exactly the residue. -/
theorem fromBigInt_to_big_int_roundtrip (n : Nat) (h : n % CURVE_ORDER ≠ 0) :
    ∃ s : Secp256k1Scalar, Secp256k1Scalar.fromBigInt n = some s ∧
      s.to_big_int = n % CURVE_ORDER ∧
      s.fe.bytes = padTo SECRET_KEY_SIZE (natToBytes (n % CURVE_ORDER)) ∧
      s.fe.bytes.length = SECRET_KEY_SIZE := by
  obtain ⟨h1, h2, h3⟩ := fromBigInt_sound n h
  exact ⟨_, h1, h2, rfl, h3⟩

/-- Claim C1 witness at the concrete input `order + 5`. -/
theorem fromBigInt_to_big_int_roundtrip_witness :
    (CURVE_ORDER + 5) % CURVE_ORDER ≠ 0 ∧
    ∃ s : Secp256k1Scalar, Secp256k1Scalar.fromBigInt (CURVE_ORDER + 5) = some s ∧
      s.to_big_int = (CURVE_ORDER + 5) % CURVE_ORDER ∧
      s.fe.bytes = padTo SECRET_KEY_SIZE (natToBytes ((CURVE_ORDER + 5) % CURVE_ORDER)) ∧
      s.fe.bytes.length = SECRET_KEY_SIZE :=
  ⟨by decide, fromBigInt_to_big_int_roundtrip (CURVE_ORDER + 5) (by decide)⟩

/-- Claim C2 counterexample: two valid scalars with values 1 and order - 1 are
produced by `from_integer`, yet their sum reduces to zero modulo the order and
`add` fails (backend rejection of the zero scalar) instead of returning a
congruent Scalar. -/
theorem scalar_add_to_zero_counterexample :
    Secp256k1Scalar.fromBigInt 1 = some scOne ∧
    Secp256k1Scalar.fromBigInt (CURVE_ORDER - 1) = some scOM1 ∧
    scOne.fe.valid ∧ scOM1.fe.valid ∧
    scOne.add scOM1.fe = none := by decide

/-- Claim C2 (amended): for all valid Scalars, `add`, `mul` and `sub` return a
Scalar whose integer value is the corresponding Integer Backend modular result
whenever that result is nonzero; a zero modular result makes the operation
fail. -/
theorem scalar_arith_congruence (a b : Secp256k1Scalar)
    (ha : a.fe.valid) (hb : b.fe.valid) :
    ((a.to_big_int + b.to_big_int) % CURVE_ORDER ≠ 0 →
      ∃ c : Secp256k1Scalar, a.add b.fe = some c ∧
        c.to_big_int = (a.to_big_int + b.to_big_int) % CURVE_ORDER) ∧
    (a.to_big_int * b.to_big_int % CURVE_ORDER ≠ 0 →
      ∃ c : Secp256k1Scalar, a.mul b.fe = some c ∧
        c.to_big_int = a.to_big_int * b.to_big_int % CURVE_ORDER) ∧
    (mod_sub a.to_big_int b.to_big_int CURVE_ORDER ≠ 0 →
      ∃ c : Secp256k1Scalar, a.sub b.fe = some c ∧
        c.to_big_int = mod_sub a.to_big_int b.to_big_int CURVE_ORDER ∧
        (c.to_big_int + b.to_big_int) % CURVE_ORDER = a.to_big_int % CURVE_ORDER) := by
  refine ⟨fun hs => ?_, fun hm => ?_, fun hd => ?_⟩
  · have hmod : mod_add a.to_big_int b.to_big_int Secp256k1Scalar.q
        = (a.to_big_int + b.to_big_int) % CURVE_ORDER := mod_add_eq _ _ _
    have hnz : mod_add a.to_big_int b.to_big_int Secp256k1Scalar.q % CURVE_ORDER ≠ 0 := by
      rw [hmod, Nat.mod_mod_of_dvd _ dvd_rfl]
      exact hs
    obtain ⟨sk, hmap, hval⟩ := fromBigInt_map_purpose _ "add" hnz
    refine ⟨⟨"add", sk⟩, hmap, ?_⟩
    show bytesToNat sk.bytes = _
    rw [hval, hmod, Nat.mod_mod_of_dvd _ dvd_rfl]
  · have hmod : mod_mul a.to_big_int b.to_big_int Secp256k1Scalar.q
        = a.to_big_int * b.to_big_int % CURVE_ORDER := mod_mul_eq _ _ _
    have hnz : mod_mul a.to_big_int b.to_big_int Secp256k1Scalar.q % CURVE_ORDER ≠ 0 := by
      rw [hmod, Nat.mod_mod_of_dvd _ dvd_rfl]
      exact hm
    obtain ⟨sk, hmap, hval⟩ := fromBigInt_map_purpose _ "mul" hnz
    refine ⟨⟨"mul", sk⟩, hmap, ?_⟩
    show bytesToNat sk.bytes = _
    rw [hval, hmod, Nat.mod_mod_of_dvd _ dvd_rfl]
  · have hlt : mod_sub a.to_big_int b.to_big_int Secp256k1Scalar.q < CURVE_ORDER :=
      Nat.mod_lt _ (by decide : 0 < CURVE_ORDER)
    have hnz : mod_sub a.to_big_int b.to_big_int Secp256k1Scalar.q % CURVE_ORDER ≠ 0 := by
      rw [Nat.mod_eq_of_lt hlt]
      exact hd
    obtain ⟨sk, hmap, hval⟩ := fromBigInt_map_purpose _ "mul" hnz
    refine ⟨⟨"mul", sk⟩, hmap, ?_, ?_⟩
    · show bytesToNat sk.bytes = _
      rw [hval, Nat.mod_eq_of_lt hlt]
      rfl
    · show (bytesToNat sk.bytes + b.to_big_int) % CURVE_ORDER = a.to_big_int % CURVE_ORDER
      rw [hval, Nat.mod_eq_of_lt hlt]
      exact mod_sub_add_cancel _ _ _ (by decide : 0 < CURVE_ORDER)

/-- Claim C2 witness at the concrete valid scalars with values 2 and 3. -/
theorem scalar_arith_congruence_witness :
    (∃ c : Secp256k1Scalar, sc2.add sc3.fe = some c ∧
      c.to_big_int = (sc2.to_big_int + sc3.to_big_int) % CURVE_ORDER) ∧
    (∃ c : Secp256k1Scalar, sc2.mul sc3.fe = some c ∧
      c.to_big_int = sc2.to_big_int * sc3.to_big_int % CURVE_ORDER) ∧
    (∃ c : Secp256k1Scalar, sc2.sub sc3.fe = some c ∧
      c.to_big_int = mod_sub sc2.to_big_int sc3.to_big_int CURVE_ORDER ∧
      (c.to_big_int + sc3.to_big_int) % CURVE_ORDER = sc2.to_big_int % CURVE_ORDER) := by
  obtain ⟨h1, h2, h3⟩ := scalar_arith_congruence sc2 sc3 (by decide) (by decide)
  exact ⟨h1 (by decide), h2 (by decide), h3 (by decide)⟩

/-- Claim C3 counterexample: a Scalar built by `add` and one built by
`from_integer` carry the same raw value 5, their raw scalars are equal, yet
the derived equality distinguishes them because the purpose strings differ. -/
theorem purpose_affects_eq_counterexample :
    sc2.add sc3.fe = some ⟨"add", sk5⟩ ∧
    Secp256k1Scalar.fromBigInt 5 = some ⟨"from_big_int", sk5⟩ ∧
    (⟨"add", sk5⟩ : Secp256k1Scalar) ≠ ⟨"from_big_int", sk5⟩ ∧
    (⟨"add", sk5⟩ : Secp256k1Scalar).fe = (⟨"from_big_int", sk5⟩ : Secp256k1Scalar).fe := by
  decide

/-- Claim C3 (amended): equality of Scalars and of Points is full structural
equality: the purpose tag and the raw value must both agree, so the purpose
tag does affect equality. -/
theorem eq_iff_purpose_and_raw (a b : Secp256k1Scalar) (p q : Secp256k1Point) :
    (a = b ↔ a.purpose = b.purpose ∧ a.fe = b.fe) ∧
    (p = q ↔ p.purpose = q.purpose ∧ p.ge = q.ge) := by
  constructor
  · cases a
    cases b
    simp
  · cases p
    cases q
    simp

/-- Claim C4: for every choice of the Hash Primitive, `base_point2` computes
exactly the spec-described construction (three sequential hash applications on
the integer reading of the compressed generator, then compressed decoding
under the parity byte 0x02), any two calls agree, and a produced point is
never equal to the generator. -/
theorem base_point2_triple_hash (H : Nat → Nat) :
    Secp256k1Point.base_point2 H = second_generator_spec H ∧
    (∀ p₁ p₂ : Secp256k1Point, Secp256k1Point.base_point2 H = some p₁ →
      Secp256k1Point.base_point2 H = some p₂ → p₁ = p₂) ∧
    (∀ p g : Secp256k1Point, Secp256k1Point.base_point2 H = some p →
      Secp256k1Point.generator = some g → p ≠ g) := by
  refine ⟨rfl, fun p₁ p₂ h₁ h₂ => Option.some_injective _ (h₁.symm.trans h₂), ?_⟩
  intro p g hp hg
  have hgen : g = genPoint := by
    have := hg.symm.trans generator_eq
    exact Option.some_injective _ this
  unfold Secp256k1Point.base_point2 at hp
  rw [generator_eq] at hp
  have hp2 : Option.map (fun pk => ({ purpose := "blind_point", ge := pk } : Secp256k1Point))
      (PK.from_slice (2 :: natToBytes (H (H (H genPoint.bytes_compressed_to_big_int)))))
      = some p := hp
  cases hfs : PK.from_slice
      (2 :: natToBytes (H (H (H genPoint.bytes_compressed_to_big_int)))) with
  | none =>
    rw [hfs] at hp2
    exact absurd hp2 (by simp)
  | some pk =>
    rw [hfs] at hp2
    have hpv : p = ⟨"blind_point", pk⟩ := (Option.some_injective _ hp2).symm
    rw [hpv, hgen]
    intro heq
    have : ("blind_point" : String) = "base_fe" := congrArg Secp256k1Point.purpose heq
    exact absurd this (by decide)

/-- Claim C4 witness: at a concrete hash function the construction succeeds,
matches the spec-side description, and the produced point differs from the
generator. -/
theorem base_point2_triple_hash_witness :
    Secp256k1Point.base_point2 hashConst = second_generator_spec hashConst ∧
    (⟨"blind_point", ⟨GENERATOR_X, GENERATOR_Y⟩⟩ : Secp256k1Point) ≠ genPoint :=
  ⟨(base_point2_triple_hash hashConst).1,
    (base_point2_triple_hash hashConst).2.2 _ _ (by decide) generator_eq⟩

/-- Claim C5: for every valid Point (its raw coordinates satisfy the backend
curve validation), rebuilding through `from_coor` of its extracted coordinates
succeeds and serializes to the identical x/y record. -/
theorem from_coor_roundtrip_serialize (p : Secp256k1Point)
    (h : onCurve p.ge.x p.ge.y) :
    ∃ q : Secp256k1Point, Secp256k1Point.from_coor p.x_coor p.y_coor = some q ∧
      pointSerialize q = pointSerialize p := by
  have hx32 : p.ge.x < 256 ^ 32 := lt_trans h.1 FIELD_PRIME_lt_pow
  have hy32 : p.ge.y < 256 ^ 32 := lt_trans h.2.1 FIELD_PRIME_lt_pow
  obtain ⟨hxc, hyc⟩ := coor_spec p hx32 hy32
  rw [hxc, hyc, from_coor_spec p.ge.x p.ge.y hx32 hy32 h]
  refine ⟨_, rfl, ?_⟩
  have hq := coor_spec ⟨"base_fe", ⟨p.ge.x, p.ge.y⟩⟩ hx32 hy32
  unfold pointSerialize
  rw [hq.1, hq.2, hxc, hyc]

/-- Claim C5 witness at the generator point. -/
theorem from_coor_roundtrip_serialize_witness :
    onCurve genPoint.ge.x genPoint.ge.y ∧
    ∃ q : Secp256k1Point,
      Secp256k1Point.from_coor genPoint.x_coor genPoint.y_coor = some q ∧
      pointSerialize q = pointSerialize genPoint :=
  ⟨by decide, from_coor_roundtrip_serialize genPoint (by decide)⟩

/-- Claim C8: coordinates of an on-curve point whose big-endian encodings are
shorter than 32 bytes pass the re-padding assertions of `from_coor`; the
built point equals the one decoded from the full-width layout, and extracting
or serializing it reproduces the original integers. -/
theorem from_coor_short_padding (x y : Nat)
    (hx : (natToBytes x).length < 32) (hy : (natToBytes y).length < 32)
    (hc : onCurve x y) :
    ∃ q : Secp256k1Point, Secp256k1Point.from_coor x y = some q ∧
      PK.from_slice (4 :: (padTo 32 (natToBytes x) ++ padTo 32 (natToBytes y)))
        = some q.ge ∧
      q.x_coor = x ∧ q.y_coor = y ∧
      pointSerialize q = (toHex x, toHex y) := by
  have hx32 : x < 256 ^ 32 :=
    lt_trans (natToBytes_value_lt x) (Nat.pow_lt_pow_right (by norm_num) hx)
  have hy32 : y < 256 ^ 32 :=
    lt_trans (natToBytes_value_lt y) (Nat.pow_lt_pow_right (by norm_num) hy)
  have hq := coor_spec ⟨"base_fe", ⟨x, y⟩⟩ hx32 hy32
  refine ⟨⟨"base_fe", ⟨x, y⟩⟩, from_coor_spec x y hx32 hy32 hc,
    PK_from_slice_uncompressed x y hx32 hy32 hc, hq.1, hq.2, ?_⟩
  unfold pointSerialize
  rw [hq.1, hq.2]

/-- Claim C8 witness at a concrete on-curve point with a 2-byte x encoding and
a 31-byte y encoding. -/
theorem from_coor_short_padding_witness :
    ((natToBytes shortX).length < 32 ∧ (natToBytes shortY).length < 32 ∧
      onCurve shortX shortY) ∧
    ∃ q : Secp256k1Point, Secp256k1Point.from_coor shortX shortY = some q ∧
      PK.from_slice (4 :: (padTo 32 (natToBytes shortX) ++ padTo 32 (natToBytes shortY)))
        = some q.ge ∧
      q.x_coor = shortX ∧ q.y_coor = shortY ∧
      pointSerialize q = (toHex shortX, toHex shortY) :=
  ⟨by decide, from_coor_short_padding shortX shortY (by decide) (by decide) (by decide)⟩

/-- Claim C9: the uncompressed key-slice helper emits the 0x04 format byte
followed by the x-coordinate bytes twice; the y coordinate is never written,
so the output is unchanged when only the y coordinate varies (within the
canonical coordinate range). -/
theorem pk_to_key_slice_duplicates_x :
    (∀ p : Secp256k1Point,
      p.pk_to_key_slice = 4 :: (natToBytes p.x_coor ++ natToBytes p.x_coor)) ∧
    (∀ p q : Secp256k1Point, p.ge.x = q.ge.x → p.ge.x < 256 ^ 32 →
      p.ge.y < 256 ^ 32 → q.ge.y < 256 ^ 32 →
      p.pk_to_key_slice = q.pk_to_key_slice) := by
  refine ⟨fun p => rfl, fun p q hxx hx hpy hqy => ?_⟩
  have hqx : q.ge.x < 256 ^ 32 := by
    rw [← hxx]
    exact hx
  have hp := coor_spec p hx hpy
  have hq := coor_spec q hqx hqy
  unfold Secp256k1Point.pk_to_key_slice
  rw [hp.1, hq.1, hxx]

/-- Claim C9 witness: two points sharing the x coordinate of the generator but
with different y coordinates produce the same key slice. -/
theorem pk_to_key_slice_duplicates_x_witness :
    genPoint.pk_to_key_slice
        = (⟨"other", ⟨GENERATOR_X, 1⟩⟩ : Secp256k1Point).pk_to_key_slice ∧
    genPoint.pk_to_key_slice
        = 4 :: (natToBytes genPoint.x_coor ++ natToBytes genPoint.x_coor) :=
  ⟨pk_to_key_slice_duplicates_x.2 genPoint ⟨"other", ⟨GENERATOR_X, 1⟩⟩ rfl
      (by decide) (by decide) (by decide),
    pk_to_key_slice_duplicates_x.1 genPoint⟩

/-- Claim C6 counterexample: the hex string of the curve order itself encodes
a value at least the order, yet deserialization does not return a reduced
Scalar: the reduction yields zero, the backend rejects the all-zero raw bytes
and the visitor panics. -/
theorem scalar_deser_order_counterexample :
    from_hex "fffffffffffffffffffffffffffffffebaaedce6af48a03bbfd25e8cd0364141"
      = some CURVE_ORDER ∧
    scalar_visit_str "fffffffffffffffffffffffffffffffebaaedce6af48a03bbfd25e8cd0364141"
      = none := by decide

/-- Claim C6 (amended): a hexadecimal Scalar string encoding a value at least
the order is not rejected for being out of range; the visitor parses it and
rebuilds via `from_integer`, yielding the value reduced modulo the order —
provided the residue is nonzero (a string encoding an exact multiple of the
order makes the rebuild fail on the zero scalar). -/
theorem scalar_deser_reduces (s : String) (v : Nat) (hp : from_hex s = some v)
    (hge : CURVE_ORDER ≤ v) (hnz : v % CURVE_ORDER ≠ 0) :
    ∃ sc : Secp256k1Scalar, scalar_visit_str s = some sc ∧
      sc.to_big_int = v % CURVE_ORDER := by
  obtain ⟨h1, h2, _⟩ := fromBigInt_sound v hnz
  refine ⟨⟨"from_big_int", ⟨padTo SECRET_KEY_SIZE (natToBytes (v % CURVE_ORDER))⟩⟩, ?_, h2⟩
  unfold scalar_visit_str
  rw [hp]
  exact h1

/-- Claim C6 witness at the hex string of `order + 1`. -/
theorem scalar_deser_reduces_witness :
    from_hex "fffffffffffffffffffffffffffffffebaaedce6af48a03bbfd25e8cd0364142"
      = some (CURVE_ORDER + 1) ∧
    ∃ sc : Secp256k1Scalar,
      scalar_visit_str "fffffffffffffffffffffffffffffffebaaedce6af48a03bbfd25e8cd0364142"
        = some sc ∧
      sc.to_big_int = (CURVE_ORDER + 1) % CURVE_ORDER :=
  ⟨by decide, scalar_deser_reduces _ (CURVE_ORDER + 1) (by decide) (by decide) (by decide)⟩

theorem readFields_unknown (entries : List (String × String)) :
    ∀ x0 y0 : String, (∃ kv ∈ entries, kv.1 ≠ "x" ∧ kv.1 ≠ "y") →
    ∃ k, k ≠ "x" ∧ k ≠ "y" ∧
      readFields entries x0 y0 = Except.error (DeserError.unknownField k) := by
  induction entries with
  | nil =>
    intro x0 y0 h
    obtain ⟨kv, hm, _⟩ := h
    exact absurd hm (List.not_mem_nil kv)
  | cons kv rest ih =>
    intro x0 y0 h
    obtain ⟨k, v⟩ := kv
    by_cases hx : k = "x"
    · subst hx
      show (∃ k, k ≠ "x" ∧ k ≠ "y" ∧ readFields rest v y0 = _)
      apply ih
      obtain ⟨kv2, hm, hk⟩ := h
      rcases List.mem_cons.1 hm with heq | hmem
      · exact absurd rfl (by rw [heq] at hk; exact hk.1)
      · exact ⟨kv2, hmem, hk⟩
    · by_cases hy : k = "y"
      · subst hy
        have hred : readFields (("y", v) :: rest) x0 y0 = readFields rest x0 v := by
          show (if ("y" : String) = "x" then _ else if ("y" : String) = "y" then _ else _) = _
          rw [if_neg (by decide), if_pos rfl]
        rw [hred]
        apply ih
        obtain ⟨kv2, hm, hk⟩ := h
        rcases List.mem_cons.1 hm with heq | hmem
        · exact absurd rfl (by rw [heq] at hk; exact hk.2)
        · exact ⟨kv2, hmem, hk⟩
      · refine ⟨k, hx, hy, ?_⟩
        show (if k = "x" then _ else if k = "y" then _ else _) = _
        rw [if_neg hx, if_neg hy]

/-- Claim C7: a structured Point record holding any field named neither x nor
y makes deserialization fail fatally with an unknown-field fault; the entry is
not skipped and no Point is produced. -/
theorem visit_map_unknown_field_fatal (entries : List (String × String))
    (h : ∃ kv ∈ entries, kv.1 ≠ "x" ∧ kv.1 ≠ "y") :
    ∃ name, name ≠ "x" ∧ name ≠ "y" ∧
      visit_map entries = Except.error (DeserError.unknownField name) := by
  obtain ⟨k, hk1, hk2, hr⟩ := readFields_unknown entries "" "" h
  refine ⟨k, hk1, hk2, ?_⟩
  unfold visit_map
  rw [hr]

/-- Claim C7 witness on a record with fields x and zz. -/
theorem visit_map_unknown_field_fatal_witness :
    ∃ name, name ≠ "x" ∧ name ≠ "y" ∧
      visit_map [("x", "1"), ("zz", "2")]
        = Except.error (DeserError.unknownField name) :=
  visit_map_unknown_field_fatal _ ⟨("zz", "2"), by decide⟩

theorem readFields_known (entries : List (String × String)) :
    ∀ x0 y0 : String, (∀ kv ∈ entries, kv.1 = "x" ∨ kv.1 = "y") →
    ∃ xr yr, readFields entries x0 y0 = Except.ok (xr, yr) ∧
      ((∀ kv ∈ entries, kv.1 ≠ "x") → xr = x0) ∧
      ((∀ kv ∈ entries, kv.1 ≠ "y") → yr = y0) := by
  induction entries with
  | nil =>
    intro x0 y0 _
    exact ⟨x0, y0, rfl, fun _ => rfl, fun _ => rfl⟩
  | cons kv rest ih =>
    intro x0 y0 h
    obtain ⟨k, v⟩ := kv
    have hrest : ∀ kv ∈ rest, kv.1 = "x" ∨ kv.1 = "y" :=
      fun kv2 hm => h kv2 (List.mem_cons_of_mem _ hm)
    rcases h (k, v) (List.mem_cons_self _ _) with hx | hy
    · have hxk : k = "x" := hx
      subst hxk
      obtain ⟨xr, yr, hr, hxs, hys⟩ := ih v y0 hrest
      refine ⟨xr, yr, hr, ?_, ?_⟩
      · intro hall
        exact absurd rfl (hall ("x", v) (List.mem_cons_self _ _))
      · intro hall
        exact hys fun kv2 hm => hall kv2 (List.mem_cons_of_mem _ hm)
    · have hyk : k = "y" := hy
      subst hyk
      obtain ⟨xr, yr, hr, hxs, hys⟩ := ih x0 v hrest
      have hred : readFields (("y", v) :: rest) x0 y0 = readFields rest x0 v := by
        show (if ("y" : String) = "x" then _ else if ("y" : String) = "y" then _ else _) = _
        rw [if_neg (by decide), if_pos rfl]
      refine ⟨xr, yr, by rw [hred]; exact hr, ?_, ?_⟩
      · intro hall
        exact hxs fun kv2 hm => hall kv2 (List.mem_cons_of_mem _ hm)
      · intro hall
        exact absurd rfl (hall ("y", v) (List.mem_cons_self _ _))

/-- Claim C10: when every field of the record is named x or y but one of the
two is absent, deserialization reports no missing-field fault; the missing
coordinate stays the empty string, whose hexadecimal parse fails, so the call
fails with the hex-parse fault. -/
theorem visit_map_missing_field_hex_fault (entries : List (String × String))
    (hall : ∀ kv ∈ entries, kv.1 = "x" ∨ kv.1 = "y")
    (hmiss : (∀ kv ∈ entries, kv.1 ≠ "x") ∨ (∀ kv ∈ entries, kv.1 ≠ "y")) :
    visit_map entries = Except.error DeserError.hexParse := by
  obtain ⟨xr, yr, hr, hxs, hys⟩ := readFields_known entries "" "" hall
  unfold visit_map
  rw [hr]
  rcases hmiss with hmx | hmy
  · rw [hxs hmx]
    rfl
  · rw [hys hmy]
    show (match from_hex xr with
      | none => Except.error DeserError.hexParse
      | some xv =>
        match from_hex "" with
        | none => Except.error DeserError.hexParse
        | some yv =>
          match Secp256k1Point.from_coor xv yv with
          | none => Except.error DeserError.pointConstruction
          | some p => Except.ok p) = Except.error DeserError.hexParse
    cases hfx : from_hex xr with
    | none => rfl
    | some xv => rfl

/-- Claim C10 witness on a record holding only a y field. -/
theorem visit_map_missing_field_hex_fault_witness :
    visit_map [("y", "ab")] = Except.error DeserError.hexParse :=
  visit_map_missing_field_hex_fault _ (by decide) (Or.inl (by decide))
